import Mathlib

set_option linter.unusedVariables false

/-!
Verification development for the IEEE-Hackathon Express backend.

The definitions below are a shallow embedding of the two transactional
workflows of the repository: team registration
(`src/src/handlers/participant.handler.ts`, `registerTeam`, plus the
file-upload variant appended to `src/src/handlers/evaluator.handler.ts`)
and evaluation scoring (`src/src/handlers/evaluator.handler.ts`,
`submitEvaluation`).  JavaScript numbers are modelled by `Rat`, database
integer columns by `Int`, and the relevant store constraints
(`prisma/migrations/20260201193134_init/migration.sql`) are made explicit
in the state-transition functions.
-/

/-- Decidable equality of `Except` values, used to evaluate the handler
models on concrete inputs. -/
instance {ε α : Type} [DecidableEq ε] [DecidableEq α] : DecidableEq (Except ε α) := fun a b =>
  match a, b with
  | Except.error e, Except.error f =>
      if h : e = f then isTrue (by rw [h])
      else isFalse (fun hh => h (by injection hh))
  | Except.error e, Except.ok y => isFalse (fun hh => Except.noConfusion hh)
  | Except.ok x, Except.error f => isFalse (fun hh => Except.noConfusion hh)
  | Except.ok x, Except.ok y =>
      if h : x = y then isTrue (by rw [h])
      else isFalse (fun hh => h (by injection hh))

/-- A JavaScript runtime value as it may appear in the untyped
`isIeeeMember` field of a parsed JSON request body. -/
inductive JsValue where
  | undef
  | bool (b : Bool)
  | str (s : String)
deriving DecidableEq, Repr

/-- JavaScript truthiness of such a value: `undefined` and `false` and the
empty string are falsy, everything else here is truthy. -/
def jsTruthy : JsValue → Bool
  | JsValue.undef => false
  | JsValue.bool b => b
  | JsValue.str s => decide (s ≠ "")

/-- JavaScript strict equality test `v === "Yes"`
(participant.handler.ts line 126). -/
def strictEqYes : JsValue → Bool
  | JsValue.str s => decide (s = "Yes")
  | _ => false

/-- Truthiness of an optional string field (`undefined` and `""` are
falsy). -/
def optStrTruthy : Option String → Bool
  | none => false
  | some s => decide (s ≠ "")

/-- The `Gender` enum of the Prisma schema. -/
inductive Gender where
  | Male
  | Female
  | Other
deriving DecidableEq, Repr

/-- The `MemberRole` enum of the Prisma schema. -/
inductive MemberRole where
  | TeamLeader
  | TeamMember
  | SchoolStudent
deriving DecidableEq, Repr

/-! ## Scoring normalizer (evaluator.handler.ts lines 147-163) -/

/-- A row of the `EvaluationCriteria` table: `weightage` is an `INTEGER`
column. -/
structure Criterion where
  id : String
  weightage : Int
deriving DecidableEq, Repr

/-- One element of the `scores` array of a submitEvaluation request. -/
structure ScoreInput where
  criteriaId : String
  score : Rat
deriving DecidableEq, Repr

/-- The accumulation loop of submitEvaluation (lines 152-158): for each
submitted score, look the criterion up by id; on a hit add
`score * weightage / 100` to the running total and `weightage` to the
running weight; on a miss do nothing. -/
def scoreFold (criteria : List Criterion) (scores : List ScoreInput) : Rat × Int :=
  scores.foldl
    (fun acc s =>
      match criteria.find? (fun c => decide (c.id = s.criteriaId)) with
      | some c => (acc.1 + s.score * (c.weightage : Rat) / 100, acc.2 + c.weightage)
      | none => acc)
    (0, 0)

/-- The computed total of submitEvaluation (lines 149-163): the folded
weighted sum, rescaled by `* 100 / totalWeightage` exactly when
`totalWeightage > 0 && totalWeightage !== 100`. -/
def computeTotal (criteria : List Criterion) (scores : List ScoreInput) : Rat :=
  let acc := scoreFold criteria scores
  if 0 < acc.2 ∧ acc.2 ≠ 100 then acc.1 * 100 / (acc.2 : Rat) else acc.1

/-- Spec-side view: the submitted pairs whose `criteriaId` matches a known
criterion, each paired with the criterion it matched. -/
def matchedCriteria (criteria : List Criterion) (scores : List ScoreInput) :
    List (ScoreInput × Criterion) :=
  scores.filterMap
    (fun s => (criteria.find? (fun c => decide (c.id = s.criteriaId))).map (fun c => (s, c)))

/-- Spec-side weighted sum `Σ rawScore_i * weight_i / 100` over the
matched pairs. -/
def specWeightedSum (criteria : List Criterion) (scores : List ScoreInput) : Rat :=
  ((matchedCriteria criteria scores).map
    (fun p => p.1.score * (p.2.weightage : Rat) / 100)).sum

/-- Spec-side total weight `Σ weight_i` over the matched pairs. -/
def specTotalWeight (criteria : List Criterion) (scores : List ScoreInput) : Int :=
  ((matchedCriteria criteria scores).map (fun p => p.2.weightage)).sum

/-! ## Evaluation store (evaluator.handler.ts lines 166-216 and the
`Evaluation` / `EvaluationScore` tables of the migration) -/

/-- A row of the `Evaluation` table (the fields the handler reads or
writes). -/
structure EvaluationRow where
  id : Nat
  submissionId : String
  evaluatorId : String
  totalScore : Rat
  comments : String
deriving DecidableEq, Repr

/-- A row of the `EvaluationScore` table (the unique `(evaluationId,
criteriaId)` pair and the raw score). -/
structure EvaluationScoreRow where
  evaluationId : Nat
  criteriaId : String
  score : Rat
deriving DecidableEq, Repr

/-- The evaluation-related portion of the database. `nextId` models the
store's fresh-id supply: every existing row id is below it. -/
structure EvalDB where
  evaluations : List EvaluationRow
  evalScores : List EvaluationScoreRow
  nextId : Nat
deriving DecidableEq, Repr

/-- The Evaluation rows held by a given (submission, evaluator) pair. -/
def pairEvals (db : EvalDB) (submissionId evaluatorId : String) : List EvaluationRow :=
  db.evaluations.filter
    (fun e => decide (e.submissionId = submissionId ∧ e.evaluatorId = evaluatorId))

/-- The EvaluationScore rows linked to a given evaluation id. -/
def scoresOf (db : EvalDB) (evaluationId : Nat) : List EvaluationScoreRow :=
  db.evalScores.filter (fun s => decide (s.evaluationId = evaluationId))

/-- Pairwise distinctness of a list of keys (used for the batch-insert
uniqueness constraint). -/
def distinctKeys : List String → Bool
  | [] => true
  | k :: ks => !decide (k ∈ ks) && distinctKeys ks

/-- Validity of a submitted score set with respect to the criteria
table: every referenced criterion exists
(`EvaluationScore_criteriaId_fkey`) and no criterion is scored twice in
the batch (`EvaluationScore_evaluationId_criteriaId_key` within the
batch). -/
def validScores (criteria : List Criterion) (scores : List ScoreInput) : Bool :=
  scores.all (fun s => criteria.any (fun c => decide (c.id = s.criteriaId))) &&
  distinctKeys (scores.map (fun s => s.criteriaId))

/-- The store constraints checked by `evaluationScore.createMany`
(migration.sql): the batch must be valid as above, and the
`(evaluationId, criteriaId)` pairs must also be unique against the
already-present rows
(`EvaluationScore_evaluationId_criteriaId_key`). -/
def scoreRowsOk (criteria : List Criterion) (db : EvalDB) (evaluationId : Nat)
    (scores : List ScoreInput) : Bool :=
  validScores criteria scores &&
  db.evalScores.all
    (fun r => !decide (r.evaluationId = evaluationId) ||
      scores.all (fun s => !decide (s.criteriaId = r.criteriaId)))

/-- `tx.evaluationScore.createMany` (lines 207-213): one row per
submitted pair; `none` models a constraint violation aborting the
transaction. -/
def createScores (criteria : List Criterion) (db : EvalDB) (evaluationId : Nat)
    (scores : List ScoreInput) : Option EvalDB :=
  if scoreRowsOk criteria db evaluationId scores then
    some { db with
      evalScores := db.evalScores ++ scores.map (fun s => ⟨evaluationId, s.criteriaId, s.score⟩) }
  else none

/-- The transaction body of submitEvaluation (lines 166-216): find the
evaluation for the (submission, evaluator) pair; if present delete all
its score rows and update its total and comments in place, otherwise
create a fresh evaluation; then insert the new score rows. `none` means
the transaction aborted (rolled back). -/
def submitEvaluationTx (criteria : List Criterion) (db : EvalDB)
    (evaluatorId submissionId : String) (scores : List ScoreInput) (comments : String) :
    Option (EvalDB × EvaluationRow) :=
  let totalScore := computeTotal criteria scores
  match db.evaluations.find?
      (fun e => decide (e.submissionId = submissionId ∧ e.evaluatorId = evaluatorId)) with
  | some existing =>
      let db1 : EvalDB := { db with
        evalScores := db.evalScores.filter (fun s => !decide (s.evaluationId = existing.id)) }
      let updated : EvaluationRow :=
        { existing with totalScore := totalScore, comments := comments }
      let db2 : EvalDB := { db1 with
        evaluations := db1.evaluations.map (fun e => if e.id = existing.id then updated else e) }
      (createScores criteria db2 existing.id scores).map (fun db3 => (db3, updated))
  | none =>
      let newEval : EvaluationRow :=
        ⟨db.nextId, submissionId, evaluatorId, totalScore, comments⟩
      let db1 : EvalDB := { db with
        evaluations := db.evaluations ++ [newEval], nextId := db.nextId + 1 }
      (createScores criteria db1 newEval.id scores).map (fun db3 => (db3, newEval))

/-- The submitEvaluation entry point: on a transaction abort the store is
left unchanged (rollback) and the call reports failure. -/
def submitEvaluation (criteria : List Criterion) (db : EvalDB)
    (evaluatorId submissionId : String) (scores : List ScoreInput) (comments : String) :
    EvalDB × Bool :=
  match submitEvaluationTx criteria db evaluatorId submissionId scores comments with
  | some (db2, _) => (db2, true)
  | none => (db, false)

/-- Database well-formedness: evaluation ids are distinct and below the
fresh-id supply, score rows point below the supply, and the
`Evaluation_submissionId_evaluatorId_key` unique index holds. -/
def EvalDB.WF (db : EvalDB) : Prop :=
  (db.evaluations.map (fun e => e.id)).Nodup ∧
  (∀ e ∈ db.evaluations, e.id < db.nextId) ∧
  (∀ s ∈ db.evalScores, s.evaluationId < db.nextId) ∧
  (db.evaluations.map (fun e => (e.submissionId, e.evaluatorId))).Nodup

/-! ## Team registration (participant.handler.ts lines 36-188, and the
file-upload variant appended to evaluator.handler.ts) -/

/-- A roster member descriptor as submitted in the request body.
`isIeeeMember` is typed `boolean` in the TypeScript interface but is an
arbitrary JSON value at runtime, so it is modelled as a `JsValue`. -/
structure TeamMemberInput where
  fullName : String
  email : String
  gender : Gender
  role : MemberRole
  isIeeeMember : JsValue
  ieeeNumber : Option String
  schoolStandard : Option String
deriving DecidableEq, Repr

/-- The faculty-mentor descriptor of the request body. -/
structure FacultyMentorInput where
  name : String
  email : String
  facultyId : String
deriving DecidableEq, Repr

/-- The community-representative descriptor of the request body. -/
structure CommunityRepInput where
  name : String
  email : String
  affiliation : String
deriving DecidableEq, Repr

/-- The full registerTeam request body. -/
structure RegisterTeamInput where
  teamName : String
  theme : String
  members : List TeamMemberInput
  facultyMentor : FacultyMentorInput
  communityRepresentative : CommunityRepInput
deriving DecidableEq, Repr

/-- The distinct error responses of the two registration handlers. -/
inductive RegError where
  | wrongRosterSize
  | leaderNotIeee
  | schoolMissingFields
  | schoolPdfMissing
  | leaderCountInvalid
  | schoolCountInvalid
  | noFemale
  | teamNameTaken
  | serverError
deriving DecidableEq, Repr

/-- The per-member Team-Leader check of the validation loop
(participant.handler.ts lines 51-62): a Team Leader must have a truthy
`isIeeeMember` and a truthy `ieeeNumber`. -/
def leaderIeeeOkb (m : TeamMemberInput) : Bool :=
  !decide (m.role = MemberRole.TeamLeader) ||
    (jsTruthy m.isIeeeMember && optStrTruthy m.ieeeNumber)

/-- The per-member School-Student check of the validation loop
(lines 64-74): a School Student must have a truthy `schoolStandard`. -/
def schoolFieldsOkb (m : TeamMemberInput) : Bool :=
  !decide (m.role = MemberRole.SchoolStudent) || optStrTruthy m.schoolStandard

/-- Both per-member checks. -/
def perMemberOkb (m : TeamMemberInput) : Bool :=
  leaderIeeeOkb m && schoolFieldsOkb m

/-- The single validation pass over the members array (lines 50-79):
walks the roster in order, failing at the first member that violates a
per-member check, and otherwise accumulates the leader, school-student
and female counters. -/
def validateMembers : List TeamMemberInput → Nat → Nat → Nat →
    Except RegError (Nat × Nat × Nat)
  | [], l, s, f => Except.ok (l, s, f)
  | m :: rest, l, s, f =>
      if leaderIeeeOkb m = false then Except.error RegError.leaderNotIeee
      else if schoolFieldsOkb m = false then Except.error RegError.schoolMissingFields
      else
        validateMembers rest
          (l + if m.role = MemberRole.TeamLeader then 1 else 0)
          (s + if m.role = MemberRole.SchoolStudent then 1 else 0)
          (f + if m.gender = Gender.Female then 1 else 0)

/-- The complete roster validation of the primary handler
(participant.handler.ts lines 40-99): size 6, then the member loop, then
exactly one leader, then at least one school student
(`schoolStudentCount === 0` is the failing case), then at least one
female member. -/
def validateRoster (members : List TeamMemberInput) : Except RegError Unit :=
  if members.length ≠ 6 then Except.error RegError.wrongRosterSize
  else
    match validateMembers members 0 0 0 with
    | Except.error e => Except.error e
    | Except.ok (l, s, f) =>
        if l ≠ 1 then Except.error RegError.leaderCountInvalid
        else if s = 0 then Except.error RegError.schoolCountInvalid
        else if f = 0 then Except.error RegError.noFemale
        else Except.ok ()

/-- The validation pass of the file-upload registerTeam variant
(evaluator.handler.ts file, lines 396-434): identical per-member checks
plus, for each School Student, a resolved uploaded PDF looked up by the
member's index. -/
def validateMembersUpload (pdf : Nat → Option String) :
    List TeamMemberInput → Nat → Nat → Nat → Nat → Except RegError (Nat × Nat × Nat)
  | [], _, l, s, f => Except.ok (l, s, f)
  | m :: rest, i, l, s, f =>
      if leaderIeeeOkb m = false then Except.error RegError.leaderNotIeee
      else if schoolFieldsOkb m = false then Except.error RegError.schoolMissingFields
      else if decide (m.role = MemberRole.SchoolStudent) && !optStrTruthy (pdf i) then
        Except.error RegError.schoolPdfMissing
      else
        validateMembersUpload pdf rest (i + 1)
          (l + if m.role = MemberRole.TeamLeader then 1 else 0)
          (s + if m.role = MemberRole.SchoolStudent then 1 else 0)
          (f + if m.gender = Gender.Female then 1 else 0)

/-- The complete roster validation of the file-upload variant
(lines 334-453): size 6, the indexed member loop, exactly one leader,
exactly one school student (`schoolStudentCount !== 1` is the failing
case), at least one female member. -/
def validateRosterUpload (pdf : Nat → Option String) (members : List TeamMemberInput) :
    Except RegError Unit :=
  if members.length ≠ 6 then Except.error RegError.wrongRosterSize
  else
    match validateMembersUpload pdf members 0 0 0 0 with
    | Except.error e => Except.error e
    | Except.ok (l, s, f) =>
        if l ≠ 1 then Except.error RegError.leaderCountInvalid
        else if s ≠ 1 then Except.error RegError.schoolCountInvalid
        else if f = 0 then Except.error RegError.noFemale
        else Except.ok ()

/-- Number of Team Leaders in a roster. -/
def countLeaders (ms : List TeamMemberInput) : Nat :=
  ms.countP (fun m => decide (m.role = MemberRole.TeamLeader))

/-- Number of School Students in a roster. -/
def countSchool (ms : List TeamMemberInput) : Nat :=
  ms.countP (fun m => decide (m.role = MemberRole.SchoolStudent))

/-- Number of female members in a roster. -/
def countFemale (ms : List TeamMemberInput) : Nat :=
  ms.countP (fun m => decide (m.gender = Gender.Female))

/-- A row of the `Team` table. -/
structure TeamRow where
  id : Nat
  teamName : String
  theme : String
deriving DecidableEq, Repr

/-- A row of the `TeamMember` table (the columns the handler writes). -/
structure TeamMemberRow where
  teamId : Nat
  fullName : String
  email : String
  gender : Gender
  role : MemberRole
  isIeeeMember : Bool
  ieeeNumber : Option String
  schoolStandard : Option String
deriving DecidableEq, Repr

/-- A row of the `FacultyMentor` table. -/
structure FacultyMentorRow where
  teamId : Nat
  name : String
  email : String
  facultyId : String
deriving DecidableEq, Repr

/-- A row of the `CommunityRepresentative` table. -/
structure CommunityRepRow where
  teamId : Nat
  name : String
  email : String
  affiliation : String
deriving DecidableEq, Repr

/-- A row of the `User` table (the columns the handler writes). -/
structure UserRow where
  name : String
  email : String
  password : String
  role : String
  teamId : Nat
deriving DecidableEq, Repr

/-- The registration-related portion of the database. -/
structure RegDB where
  teams : List TeamRow
  teamMembers : List TeamMemberRow
  mentors : List FacultyMentorRow
  reps : List CommunityRepRow
  users : List UserRow
  nextId : Nat
deriving DecidableEq, Repr

/-- The persisted image of a submitted roster member
(participant.handler.ts lines 121-129): the stored `isIeeeMember` flag
is `member.isIeeeMember === "Yes" ? true : false`. -/
def persistMember (teamId : Nat) (m : TeamMemberInput) : TeamMemberRow :=
  { teamId := teamId
    fullName := m.fullName
    email := m.email
    gender := m.gender
    role := m.role
    isIeeeMember := if strictEqYes m.isIeeeMember then true else false
    ieeeNumber := m.ieeeNumber
    schoolStandard := m.schoolStandard }

/-- A failure inside the registration transaction: a store
unique-constraint violation (Prisma error P2002), or the forced failure
injected between roster creation and leader-identity creation. -/
inductive TxError where
  | uniqueViolation
  | injected
deriving DecidableEq, Repr

/-- The catch block of registerTeam (lines 180-187): a P2002
unique-violation is reported as the taken-team-name conflict, anything
else as a server error. -/
def translateTxError : TxError → RegError
  | TxError.uniqueViolation => RegError.teamNameTaken
  | TxError.injected => RegError.serverError

/-- The store state after the `tx.team.create` nested insert
(lines 116-151): the new Team row with a fresh id, its member rows, the
mentor row and the representative row. -/
def regTeamInsert (db : RegDB) (input : RegisterTeamInput) : RegDB :=
  { db with
    teams := db.teams ++ [⟨db.nextId, input.teamName, input.theme⟩]
    teamMembers := db.teamMembers ++ input.members.map (persistMember db.nextId)
    mentors := db.mentors ++ [⟨db.nextId, input.facultyMentor.name,
      input.facultyMentor.email, input.facultyMentor.facultyId⟩]
    reps := db.reps ++ [⟨db.nextId, input.communityRepresentative.name,
      input.communityRepresentative.email, input.communityRepresentative.affiliation⟩]
    nextId := db.nextId + 1 }

/-- The store state after the `tx.user.create` insert (lines 157-165):
the leader's login account with the hashed fixed password, role
"participant" and the new team id. -/
def regUserInsert (hash : String → String) (db : RegDB) (leader : TeamMemberInput)
    (tid : Nat) : RegDB :=
  { db with
    users := db.users ++
      [⟨leader.fullName, leader.email, hash "qwert123", "participant", tid⟩] }

/-- The registration transaction (lines 114-169): create the team with
its members, mentor and representative (the `Team_teamName_key` unique
index may reject the insert), then — unless the forced failure is
injected between the roster insert and the leader-identity insert —
create the leader's user account (subject to the `User_email_key` unique
index). An error means the whole transaction rolls back, so the
constraint checks are stated up front and the final state is built only
on the success paths; no intermediate state is observable. -/
def registerTx (hash : String → String) (db : RegDB) (input : RegisterTeamInput)
    (inject : Bool) : Except TxError (RegDB × Nat) :=
  if db.teams.any (fun t => decide (t.teamName = input.teamName)) then
    Except.error TxError.uniqueViolation
  else if inject then Except.error TxError.injected
  else
    match input.members.find? (fun m => decide (m.role = MemberRole.TeamLeader)) with
    | some leader =>
        if db.users.any (fun u => decide (u.email = leader.email)) then
          Except.error TxError.uniqueViolation
        else
          Except.ok (regUserInsert hash (regTeamInsert db input) leader db.nextId, db.nextId)
    | none => Except.ok (regTeamInsert db input, db.nextId)

/-- The outcome of a registerTeam call. -/
inductive RegResult where
  | ok (teamId : Nat) (teamName : String)
  | err (e : RegError)
deriving DecidableEq, Repr

/-- The full registerTeam handler of participant.handler.ts: roster
validation, the pre-insert team-name lookup, then the transaction;
`inject` forces the modelled failure between roster creation and
leader-identity creation; on any error the store is returned
unchanged. -/
def registerTeam (hash : String → String) (db : RegDB) (input : RegisterTeamInput)
    (inject : Bool) : RegDB × RegResult :=
  match validateRoster input.members with
  | Except.error e => (db, RegResult.err e)
  | Except.ok _ =>
      if db.teams.any (fun t => decide (t.teamName = input.teamName)) then
        (db, RegResult.err RegError.teamNameTaken)
      else
        match registerTx hash db input inject with
        | Except.error e => (db, RegResult.err (translateTxError e))
        | Except.ok (db2, tid) => (db2, RegResult.ok tid input.teamName)

/-- The Team rows holding a given name. -/
def teamsNamed (db : RegDB) (name : String) : List TeamRow :=
  db.teams.filter (fun t => decide (t.teamName = name))

/-! ## Concrete instances used as witnesses and counterexamples -/

/-- A trivial password-hash stand-in for concrete instances. -/
def hash0 : String → String := fun s => s

/-- Criteria with weights 60 and 40 (sum 100). -/
def crit2 : List Criterion := [⟨"c1", 60⟩, ⟨"c2", 40⟩]

/-- Criteria with weights 30 and 20 (sum 50). -/
def crit50 : List Criterion := [⟨"c1", 30⟩, ⟨"c2", 20⟩]

/-- A single criterion with a negative weight (the `weightage` column is
a plain INTEGER and `createEvaluationCriteria` stores the request value
unchecked). -/
def critNeg : List Criterion := [⟨"c1", -50⟩]

/-- Scores 80 and 70 for the two criteria. -/
def sIn2 : List ScoreInput := [⟨"c1", 80⟩, ⟨"c2", 70⟩]

/-- A single raw score of 10. -/
def sInNeg : List ScoreInput := [⟨"c1", 10⟩]

/-- The empty evaluation store. -/
def evalDB0 : EvalDB := ⟨[], [], 0⟩

/-- A valid team leader (IEEE member with a number), female. -/
def exLeader : TeamMemberInput :=
  ⟨"Lia", "lia@example.com", Gender.Female, MemberRole.TeamLeader,
    JsValue.str "Yes", some "IEEE123", none⟩

/-- A valid school student with standard 8th. -/
def exSchool : TeamMemberInput :=
  ⟨"Sam", "sam@example.com", Gender.Male, MemberRole.SchoolStudent,
    JsValue.undef, none, some "8th"⟩

/-- An ordinary team member. -/
def exPlain (name : String) : TeamMemberInput :=
  ⟨name, name ++ "@example.com", Gender.Male, MemberRole.TeamMember,
    JsValue.undef, none, none⟩

/-- A valid roster of six members. -/
def exMembers : List TeamMemberInput :=
  [exLeader, exSchool, exPlain "a", exPlain "b", exPlain "c", exPlain "d"]

/-- A valid registration request for team "Falcons". -/
def exInput : RegisterTeamInput :=
  ⟨"Falcons", "AI", exMembers, ⟨"Dr. M", "mentor@example.com", "F42"⟩,
    ⟨"Rep", "rep@example.com", "ACM"⟩⟩

/-- A registration request for "Falcons" with an empty roster. -/
def exInputShort : RegisterTeamInput :=
  ⟨"Falcons", "AI", [], ⟨"Dr. M", "mentor@example.com", "F42"⟩,
    ⟨"Rep", "rep@example.com", "ACM"⟩⟩

/-- The empty registration store. -/
def regDB0 : RegDB := ⟨[], [], [], [], [], 0⟩

/-- A store in which the name "Falcons" is already held by a team. -/
def dbTaken : RegDB := ⟨[⟨0, "Falcons", "Web"⟩], [], [], [], [], 1⟩

/-- A school student with no school standard. -/
def exSchoolNoStd : TeamMemberInput :=
  ⟨"Sid", "sid@example.com", Gender.Male, MemberRole.SchoolStudent,
    JsValue.undef, none, none⟩

/-- A team leader claiming IEEE membership but lacking a membership
number. -/
def exLeaderNoNum : TeamMemberInput :=
  ⟨"Leo", "leo@example.com", Gender.Male, MemberRole.TeamLeader,
    JsValue.str "Yes", none, none⟩

/-- A female ordinary member. -/
def exFemale : TeamMemberInput :=
  ⟨"Fay", "fay@example.com", Gender.Female, MemberRole.TeamMember,
    JsValue.undef, none, none⟩

/-- A size-6 roster in which a field-missing school student precedes the
single IEEE-less leader. -/
def exBadOrder : List TeamMemberInput :=
  [exSchoolNoStd, exLeaderNoNum, exFemale, exPlain "a", exPlain "b", exPlain "c"]

/-- A second valid school student. -/
def exSchoolB : TeamMemberInput :=
  ⟨"Tam", "tam@example.com", Gender.Male, MemberRole.SchoolStudent,
    JsValue.undef, none, some "9th"⟩

/-- A size-6 roster with two school students that is valid in every
other respect. -/
def exTwoSchool : List TeamMemberInput :=
  [exLeader, exSchool, exSchoolB, exPlain "a", exPlain "b", exPlain "c"]

/-- A team leader whose `isIeeeMember` was submitted as the JSON boolean
`true` (with a valid membership number). -/
def exLeaderBool : TeamMemberInput :=
  ⟨"Lia", "lia@example.com", Gender.Female, MemberRole.TeamLeader,
    JsValue.bool true, some "IEEE123", none⟩

/-- A roster identical to `exMembers` except that the leader submitted
`isIeeeMember` as boolean `true`. -/
def exMembersBool : List TeamMemberInput :=
  [exLeaderBool, exSchool, exPlain "a", exPlain "b", exPlain "c", exPlain "d"]

theorem specWeightedSum_cons_some (criteria : List Criterion) (s : ScoreInput)
    (rest : List ScoreInput) (c : Criterion)
    (h : criteria.find? (fun c => decide (c.id = s.criteriaId)) = some c) :
    specWeightedSum criteria (s :: rest) =
      s.score * (c.weightage : Rat) / 100 + specWeightedSum criteria rest := by
  simp [specWeightedSum, matchedCriteria, List.filterMap_cons, h]

theorem specWeightedSum_cons_none (criteria : List Criterion) (s : ScoreInput)
    (rest : List ScoreInput)
    (h : criteria.find? (fun c => decide (c.id = s.criteriaId)) = none) :
    specWeightedSum criteria (s :: rest) = specWeightedSum criteria rest := by
  simp [specWeightedSum, matchedCriteria, List.filterMap_cons, h]

theorem specTotalWeight_cons_some (criteria : List Criterion) (s : ScoreInput)
    (rest : List ScoreInput) (c : Criterion)
    (h : criteria.find? (fun c => decide (c.id = s.criteriaId)) = some c) :
    specTotalWeight criteria (s :: rest) = c.weightage + specTotalWeight criteria rest := by
  simp [specTotalWeight, matchedCriteria, List.filterMap_cons, h]

theorem specTotalWeight_cons_none (criteria : List Criterion) (s : ScoreInput)
    (rest : List ScoreInput)
    (h : criteria.find? (fun c => decide (c.id = s.criteriaId)) = none) :
    specTotalWeight criteria (s :: rest) = specTotalWeight criteria rest := by
  simp [specTotalWeight, matchedCriteria, List.filterMap_cons, h]

theorem scoreFold_cons (criteria : List Criterion) (s : ScoreInput) (rest : List ScoreInput)
    (a : Rat) (w : Int) :
    (List.foldl
      (fun acc t =>
        match criteria.find? (fun c => decide (c.id = t.criteriaId)) with
        | some c => (acc.1 + t.score * (c.weightage : Rat) / 100, acc.2 + c.weightage)
        | none => acc)
      (a, w) (s :: rest)) =
    (List.foldl
      (fun acc t =>
        match criteria.find? (fun c => decide (c.id = t.criteriaId)) with
        | some c => (acc.1 + t.score * (c.weightage : Rat) / 100, acc.2 + c.weightage)
        | none => acc)
      (match criteria.find? (fun c => decide (c.id = s.criteriaId)) with
       | some c => (a + s.score * (c.weightage : Rat) / 100, w + c.weightage)
       | none => (a, w)) rest) := by
  simp only [List.foldl_cons]

/-- The imperative fold of the handler computes exactly the spec-side
sums (shifted by the initial accumulator). -/
theorem scoreFold_eq_spec (criteria : List Criterion) (scores : List ScoreInput) :
    ∀ a w, (List.foldl
      (fun acc t =>
        match criteria.find? (fun c => decide (c.id = t.criteriaId)) with
        | some c => (acc.1 + t.score * (c.weightage : Rat) / 100, acc.2 + c.weightage)
        | none => acc)
      (a, w) scores) =
      (a + specWeightedSum criteria scores, w + specTotalWeight criteria scores) := by
  induction scores with
  | nil =>
      intro a w
      simp [specWeightedSum, specTotalWeight, matchedCriteria]
  | cons s rest ih =>
      intro a w
      rw [scoreFold_cons]
      cases h : criteria.find? (fun c => decide (c.id = s.criteriaId)) with
      | none =>
          rw [ih, specWeightedSum_cons_none criteria s rest h,
            specTotalWeight_cons_none criteria s rest h]
      | some c =>
          rw [ih, specWeightedSum_cons_some criteria s rest c h,
            specTotalWeight_cons_some criteria s rest c h, Prod.ext_iff]
          constructor
          · show a + s.score * (c.weightage : Rat) / 100 + specWeightedSum criteria rest = _
            ring
          · show w + c.weightage + specTotalWeight criteria rest = _
            ring

/-- The total computed by submitEvaluation, expressed through the
spec-side sums. -/
theorem computeTotal_eq_spec (criteria : List Criterion) (scores : List ScoreInput) :
    computeTotal criteria scores =
      (if 0 < specTotalWeight criteria scores ∧ specTotalWeight criteria scores ≠ 100 then
        specWeightedSum criteria scores * 100 / (specTotalWeight criteria scores : Rat)
      else specWeightedSum criteria scores) := by
  unfold computeTotal scoreFold
  rw [scoreFold_eq_spec]
  simp

/-- C3 counterexample: for the criterion set with a single weight of
-50 and a single matched raw score of 10, the matched weight sum is
neither 0 nor 100, yet the code does not rescale (the claim's formula
demands `weightedSum * 100 / totalWeight` there). -/
theorem C3_unscaled_negative_weight_counterexample :
    specTotalWeight critNeg sInNeg ≠ 0 ∧ specTotalWeight critNeg sInNeg ≠ 100 ∧
    computeTotal critNeg sInNeg ≠
      specWeightedSum critNeg sInNeg * 100 / ((specTotalWeight critNeg sInNeg : Int) : Rat) := by
  have h1 : computeTotal critNeg sInNeg = -5 := by
    norm_num [computeTotal, scoreFold, critNeg, sInNeg]
  have h2 : specWeightedSum critNeg sInNeg = -5 := by
    norm_num [specWeightedSum, matchedCriteria, critNeg, sInNeg, List.filterMap_cons]
  have h3 : specTotalWeight critNeg sInNeg = -50 := by
    norm_num [specTotalWeight, matchedCriteria, critNeg, sInNeg, List.filterMap_cons]
  refine ⟨by rw [h3]; norm_num, by rw [h3]; norm_num, ?_⟩
  rw [h1, h2, h3]
  norm_num

/-- C3 (amended): the computed total equals the spec's weighted sum
`Σ rawScore_i * weight_i / 100` over the pairs whose criterionId matches
a known criterion (unmatched pairs contribute to neither sum), left
as-is when the matched weights sum to 100 or to zero-or-less, and
rescaled by `* 100 / totalWeight` only when the matched weight sum is
positive and different from 100. -/
theorem C3_total_is_weighted_sum_amended (criteria : List Criterion)
    (scores : List ScoreInput) :
    computeTotal criteria scores =
      (if 0 < specTotalWeight criteria scores ∧ specTotalWeight criteria scores ≠ 100 then
        specWeightedSum criteria scores * 100 / (specTotalWeight criteria scores : Rat)
      else specWeightedSum criteria scores) :=
  computeTotal_eq_spec criteria scores

/-- C5: when the matched criteria weights sum to exactly 100 the total
is the unnormalized weighted sum, and when they sum to 50 the total is
exactly double the unnormalized weighted sum. -/
theorem C5_normalization_roundtrip (criteria : List Criterion) (scores : List ScoreInput) :
    (specTotalWeight criteria scores = 100 →
      computeTotal criteria scores = specWeightedSum criteria scores) ∧
    (specTotalWeight criteria scores = 50 →
      computeTotal criteria scores = 2 * specWeightedSum criteria scores) := by
  constructor
  · intro h
    rw [computeTotal_eq_spec, h]
    simp
  · intro h
    rw [computeTotal_eq_spec, h]
    norm_num
    ring

/-- C5 witness: criteria weights {60, 40} with scores {80, 70} give
total 76 = weighted sum; criteria weights {30, 20} with the same scores
give double the weighted sum. -/
theorem C5_normalization_roundtrip_witness :
    specTotalWeight crit2 sIn2 = 100 ∧
    computeTotal crit2 sIn2 = specWeightedSum crit2 sIn2 ∧
    specTotalWeight crit50 sIn2 = 50 ∧
    computeTotal crit50 sIn2 = 2 * specWeightedSum crit50 sIn2 :=
  ⟨by decide, (C5_normalization_roundtrip crit2 sIn2).1 (by decide), by decide,
    (C5_normalization_roundtrip crit50 sIn2).2 (by decide)⟩

/-! ## Roster-validation lemmas -/

theorem perMemberOkb_split (m : TeamMemberInput) (h : perMemberOkb m = true) :
    leaderIeeeOkb m = true ∧ schoolFieldsOkb m = true := by
  unfold perMemberOkb at h
  exact And.intro (Bool.and_elim_left h) (Bool.and_elim_right h)

/-- When every member passes the per-member checks, the validation loop
succeeds and returns the accumulated role and gender counts. -/
theorem validateMembers_ok (ms : List TeamMemberInput) :
    ∀ l s f, (∀ m ∈ ms, perMemberOkb m = true) →
      validateMembers ms l s f =
        Except.ok (l + countLeaders ms, s + countSchool ms, f + countFemale ms) := by
  induction ms with
  | nil =>
      intro l s f h
      simp [validateMembers, countLeaders, countSchool, countFemale]
  | cons m rest ih =>
      intro l s f h
      have hm := perMemberOkb_split m (h m (List.mem_cons_self m rest))
      have hrest : ∀ x ∈ rest, perMemberOkb x = true :=
        fun x hx => h x (List.mem_cons_of_mem m hx)
      unfold validateMembers
      rw [if_neg (by rw [hm.1]; simp), if_neg (by rw [hm.2]; simp), ih _ _ _ hrest]
      simp only [countLeaders, countSchool, countFemale, List.countP_cons, decide_eq_true_eq,
        Except.ok.injEq, Prod.mk.injEq]
      refine ⟨by ring, by ring, by ring⟩

/-- When every member passes the per-member checks and every slot has a
resolved PDF, the upload-variant validation loop succeeds with the same
counts. -/
theorem validateMembersUpload_ok (pdf : Nat → Option String)
    (hpdf : ∀ j, optStrTruthy (pdf j) = true) (ms : List TeamMemberInput) :
    ∀ i l s f, (∀ m ∈ ms, perMemberOkb m = true) →
      validateMembersUpload pdf ms i l s f =
        Except.ok (l + countLeaders ms, s + countSchool ms, f + countFemale ms) := by
  induction ms with
  | nil =>
      intro i l s f h
      simp [validateMembersUpload, countLeaders, countSchool, countFemale]
  | cons m rest ih =>
      intro i l s f h
      have hm := perMemberOkb_split m (h m (List.mem_cons_self m rest))
      have hrest : ∀ x ∈ rest, perMemberOkb x = true :=
        fun x hx => h x (List.mem_cons_of_mem m hx)
      unfold validateMembersUpload
      rw [if_neg (by rw [hm.1]; simp), if_neg (by rw [hm.2]; simp),
        if_neg (by rw [hpdf i]; simp), ih _ _ _ _ hrest]
      simp only [countLeaders, countSchool, countFemale, List.countP_cons, decide_eq_true_eq,
        Except.ok.injEq, Prod.mk.injEq]
      refine ⟨by ring, by ring, by ring⟩

/-- The validation loop fails with the leader error at the first member
of the roster that is a Team Leader without IEEE credentials, whatever
comes after it. -/
theorem validateMembers_leader_fail (pre : List TeamMemberInput) :
    ∀ (m : TeamMemberInput) (post : List TeamMemberInput) l s f,
      (∀ x ∈ pre, perMemberOkb x = true) → leaderIeeeOkb m = false →
      validateMembers (pre ++ m :: post) l s f = Except.error RegError.leaderNotIeee := by
  induction pre with
  | nil =>
      intro m post l s f hpre hm
      rw [List.nil_append]
      unfold validateMembers
      rw [if_pos hm]
  | cons x rest ih =>
      intro m post l s f hpre hm
      have hx := perMemberOkb_split x (hpre x (List.mem_cons_self x rest))
      have hrest : ∀ y ∈ rest, perMemberOkb y = true :=
        fun y hy => hpre y (List.mem_cons_of_mem x hy)
      show validateMembers (x :: (rest ++ m :: post)) l s f = Except.error RegError.leaderNotIeee
      unfold validateMembers
      rw [if_neg (by rw [hx.1]; simp), if_neg (by rw [hx.2]; simp)]
      exact ih m post _ _ _ hrest hm

/-- C4 counterexample: a size-6 roster with exactly one Team Leader
lacking an IEEE number is rejected with the school-student
missing-fields error, not the leader error, because a field-missing
school student precedes the leader in the single validation scan. -/
theorem C4_first_failure_counterexample :
    countLeaders exBadOrder = 1 ∧
    (∀ m ∈ exBadOrder, m.role = MemberRole.TeamLeader →
      (jsTruthy m.isIeeeMember && optStrTruthy m.ieeeNumber) = false) ∧
    validateRoster exBadOrder = Except.error RegError.schoolMissingFields ∧
    validateRoster exBadOrder ≠ Except.error RegError.leaderNotIeee := by
  refine ⟨by decide, by decide, by decide, by decide⟩

/-- C4 (amended): the handler checks roster size first and then scans
the members in roster order, failing at the first member that is a Team
Leader without IEEE credentials or a School Student without a school
standard; the count checks (one leader, a school student, a female
member) run only after the scan.  Consequently a size-6 roster whose
single Team Leader lacks an IEEE number is rejected with the
leader-not-IEEE-member error provided every member before the leader
passes the per-member checks. -/
theorem C4_leader_error_position_amended (pre : List TeamMemberInput)
    (m : TeamMemberInput) (post : List TeamMemberInput)
    (h6 : (pre ++ m :: post).length = 6)
    (hpre : ∀ x ∈ pre, perMemberOkb x = true)
    (hrole : m.role = MemberRole.TeamLeader)
    (hieee : (jsTruthy m.isIeeeMember && optStrTruthy m.ieeeNumber) = false) :
    validateRoster (pre ++ m :: post) = Except.error RegError.leaderNotIeee := by
  have hm : leaderIeeeOkb m = false := by
    unfold leaderIeeeOkb
    rw [hieee, hrole]
    simp
  unfold validateRoster
  rw [if_neg (by rw [h6]; simp), validateMembers_leader_fail pre m post 0 0 0 hpre hm]

/-- C4 witness: a roster in which an ordinary member precedes the single
IEEE-less leader is rejected with the leader error. -/
theorem C4_leader_error_position_witness :
    validateRoster ([exFemale] ++ exLeaderNoNum ::
      [exSchool, exPlain "a", exPlain "b", exPlain "c"]) =
      Except.error RegError.leaderNotIeee :=
  C4_leader_error_position_amended [exFemale] exLeaderNoNum
    [exSchool, exPlain "a", exPlain "b", exPlain "c"]
    (by decide) (by decide) (by decide) (by decide)

/-- C7 counterexample: a size-6 roster with two School Students that is
valid in every other respect is accepted by the primary registration
handler, which therefore does not reject two-or-more School Students
with the school-student-count error. -/
theorem C7_two_school_students_counterexample :
    countSchool exTwoSchool = 2 ∧ validateRoster exTwoSchool = Except.ok () := by
  refine ⟨by decide, by decide⟩

/-- C7 (amended): the repository carries two registration validators
that disagree on the School-Student count policy.  For a size-6 roster
passing the per-member checks with exactly one leader and a female
member, the primary handler (participant.handler.ts) accepts exactly
when the roster has at least one School Student, while the file-upload
variant (the second registerTeam in the evaluator.handler file) accepts
exactly when it has exactly one. -/
theorem C7_school_student_policy_amended (ms : List TeamMemberInput)
    (pdf : Nat → Option String)
    (h6 : ms.length = 6) (hok : ∀ m ∈ ms, perMemberOkb m = true)
    (hl : countLeaders ms = 1) (hf : countFemale ms ≠ 0)
    (hpdf : ∀ j, optStrTruthy (pdf j) = true) :
    ((validateRoster ms = Except.ok ()) ↔ countSchool ms ≠ 0) ∧
    ((validateRosterUpload pdf ms = Except.ok ()) ↔ countSchool ms = 1) := by
  constructor
  · unfold validateRoster
    rw [if_neg (by rw [h6]; simp), validateMembers_ok ms 0 0 0 hok]
    simp only [Nat.zero_add, hl]
    rw [if_neg (by simp)]
    by_cases hs : countSchool ms = 0
    · rw [if_pos hs]
      simp [hs]
    · rw [if_neg hs, if_neg hf]
      simp [hs]
  · unfold validateRosterUpload
    rw [if_neg (by rw [h6]; simp), validateMembersUpload_ok pdf hpdf ms 0 0 0 0 hok]
    simp only [Nat.zero_add, hl]
    rw [if_neg (by simp)]
    by_cases hs : countSchool ms = 1
    · rw [if_neg (by rw [hs]; simp), if_neg hf]
      simp [hs]
    · rw [if_pos hs]
      simp [hs]

/-- C7 witness: on the valid example roster the primary validator
accepts because the school-student count is nonzero, and the upload
variant accepts because it is exactly one. -/
theorem C7_school_student_policy_witness :
    ((validateRoster exMembers = Except.ok ()) ↔ countSchool exMembers ≠ 0) ∧
    ((validateRosterUpload (fun _ => some "url") exMembers = Except.ok ()) ↔
      countSchool exMembers = 1) :=
  C7_school_student_policy_amended exMembers (fun _ => some "url")
    (by decide) (by decide) (by decide) (by decide) (fun j => rfl)

/-- C9: the persisted IEEE-membership flag of a roster member is true
exactly when the submitted `isIeeeMember` value is the string "Yes";
and a Team Leader who submitted it as boolean `true` (with a membership
number) passes the leader eligibility check yet is persisted with the
flag false. -/
theorem C9_ieee_flag_strict_string (tid : Nat) (m : TeamMemberInput) :
    ((persistMember tid m).isIeeeMember = true ↔ m.isIeeeMember = JsValue.str "Yes") ∧
    (m.role = MemberRole.TeamLeader → m.isIeeeMember = JsValue.bool true →
      optStrTruthy m.ieeeNumber = true →
      leaderIeeeOkb m = true ∧ (persistMember tid m).isIeeeMember = false) := by
  constructor
  · show (if strictEqYes m.isIeeeMember then true else false) = true ↔ _
    cases hv : m.isIeeeMember with
    | undef => simp [strictEqYes]
    | bool b => simp [strictEqYes]
    | str s => simp [strictEqYes]
  · intro hrole hv hnum
    constructor
    · unfold leaderIeeeOkb
      rw [hv, hnum]
      simp [jsTruthy]
    · show (if strictEqYes m.isIeeeMember then true else false) = false
      rw [hv]
      simp [strictEqYes]

/-- C9 witness: the example leader submitting boolean `true` passes the
leader check, is persisted with the flag false, and the surrounding
roster passes full validation. -/
theorem C9_ieee_flag_strict_string_witness :
    (leaderIeeeOkb exLeaderBool = true ∧
      (persistMember 0 exLeaderBool).isIeeeMember = false) ∧
    validateRoster exMembersBool = Except.ok () :=
  ⟨(C9_ieee_flag_strict_string 0 exLeaderBool).2 (by decide) (by decide) (by decide),
    by decide⟩

/-! ## Registration lemmas -/

/-- Converse count lemma: a successful validation pass returns exactly
the accumulated role and gender counts. -/
theorem validateMembers_ok_counts (ms : List TeamMemberInput) :
    ∀ l s f out, validateMembers ms l s f = Except.ok out →
      out = (l + countLeaders ms, s + countSchool ms, f + countFemale ms) := by
  induction ms with
  | nil =>
      intro l s f out h
      unfold validateMembers at h
      injection h with h1
      rw [← h1]
      simp [countLeaders, countSchool, countFemale]
  | cons m rest ih =>
      intro l s f out h
      unfold validateMembers at h
      by_cases h1 : leaderIeeeOkb m = false
      · rw [if_pos h1] at h
        exact Except.noConfusion h
      · rw [if_neg h1] at h
        by_cases h2 : schoolFieldsOkb m = false
        · rw [if_pos h2] at h
          exact Except.noConfusion h
        · rw [if_neg h2] at h
          have := ih _ _ _ _ h
          rw [this]
          simp only [countLeaders, countSchool, countFemale, List.countP_cons,
            decide_eq_true_eq, Prod.mk.injEq]
          refine ⟨by ring, by ring, by ring⟩

/-- A successful primary-handler validation forces a size-6 roster with
exactly one Team Leader. -/
theorem validateRoster_ok_shape (ms : List TeamMemberInput)
    (h : validateRoster ms = Except.ok ()) :
    ms.length = 6 ∧ countLeaders ms = 1 := by
  unfold validateRoster at h
  by_cases h6 : ms.length ≠ 6
  · rw [if_pos h6] at h
    exact Except.noConfusion h
  · rw [if_neg h6] at h
    push_neg at h6
    refine ⟨h6, ?_⟩
    cases hv : validateMembers ms 0 0 0 with
    | error e =>
        rw [hv] at h
        exact Except.noConfusion h
    | ok out =>
        obtain ⟨l, s, f⟩ := out
        rw [hv] at h
        have hc := validateMembers_ok_counts ms 0 0 0 (l, s, f) hv
        replace h : (if l ≠ 1 then Except.error RegError.leaderCountInvalid
          else if s = 0 then Except.error RegError.schoolCountInvalid
          else if f = 0 then Except.error RegError.noFemale
          else Except.ok ()) = Except.ok () := h
        by_cases hl : l ≠ 1
        · rw [if_pos hl] at h
          exact Except.noConfusion h
        · push_neg at hl
          have hfst : l = countLeaders ms := by
            have := congrArg Prod.fst hc
            simpa using this
          omega

/-- A roster with exactly one Team Leader has a first leader, found by
`find?`. -/
theorem countLeaders_find (ms : List TeamMemberInput) (h : countLeaders ms = 1) :
    ∃ leader, ms.find? (fun m => decide (m.role = MemberRole.TeamLeader)) = some leader ∧
      leader.role = MemberRole.TeamLeader ∧ leader ∈ ms := by
  have hp : 0 < List.countP (fun m => decide (m.role = MemberRole.TeamLeader)) ms := by
    unfold countLeaders at h
    omega
  rw [List.countP_pos_iff] at hp
  have hs : (ms.find? (fun m => decide (m.role = MemberRole.TeamLeader))).isSome := by
    rw [List.find?_isSome]
    exact hp
  obtain ⟨leader, hfind⟩ := Option.isSome_iff_exists.mp hs
  refine ⟨leader, hfind, ?_, List.mem_of_find?_eq_some hfind⟩
  have hpl := List.find?_some hfind
  simpa using hpl

/-- Every error outcome of registerTeam leaves the store unchanged. -/
theorem registerTeam_err_eq (hash : String → String) (db : RegDB)
    (inp : RegisterTeamInput) (inject : Bool) (d : RegDB) (e : RegError)
    (h : registerTeam hash db inp inject = (d, RegResult.err e)) : d = db := by
  unfold registerTeam at h
  split at h
  · injection h with h1 h2
    exact h1.symm
  · split at h
    · injection h with h1 h2
      exact h1.symm
    · split at h
      · injection h with h1 h2
        exact h1.symm
      · injection h with h1 h2
        exact RegResult.noConfusion h2

/-- With the team name free, the forced failure aborts the transaction
with the injected error. -/
theorem registerTx_inject (hash : String → String) (db : RegDB) (inp : RegisterTeamInput)
    (hny : ¬db.teams.any (fun t => decide (t.teamName = inp.teamName)) = true) :
    registerTx hash db inp true = Except.error TxError.injected := by
  unfold registerTx
  rw [if_neg hny]
  rfl

/-- A registerTeam call with the forced failure injected always reports
an error. -/
theorem registerTeam_inject_err (hash : String → String) (db : RegDB)
    (inp : RegisterTeamInput) :
    ∃ e, (registerTeam hash db inp true).2 = RegResult.err e := by
  unfold registerTeam
  split
  · exact ⟨_, rfl⟩
  · split
    · exact ⟨RegError.teamNameTaken, rfl⟩
    · next hny =>
        rw [registerTx_inject hash db inp hny]
        exact ⟨RegError.serverError, rfl⟩

/-- Characterization of a successful registerTeam call: validation
passed, the name was free, no failure was injected, and the resulting
store is the old one extended by precisely the team aggregate and the
leader's login account. -/
theorem registerTeam_ok_eq (hash : String → String) (db : RegDB)
    (inp : RegisterTeamInput) (inject : Bool) (d : RegDB) (tid : Nat) (nm : String)
    (h : registerTeam hash db inp inject = (d, RegResult.ok tid nm)) :
    inject = false ∧ tid = db.nextId ∧ nm = inp.teamName ∧
    validateRoster inp.members = Except.ok () ∧
    ∃ leader, inp.members.find? (fun m => decide (m.role = MemberRole.TeamLeader)) =
        some leader ∧
      leader.role = MemberRole.TeamLeader ∧ leader ∈ inp.members ∧
      d = regUserInsert hash (regTeamInsert db inp) leader db.nextId := by
  unfold registerTeam at h
  split at h
  · injection h with h1 h2
    exact RegResult.noConfusion h2
  · next u hval =>
      split at h
      · injection h with h1 h2
        exact RegResult.noConfusion h2
      · next hny =>
          split at h
          · injection h with h1 h2
            exact RegResult.noConfusion h2
          · next db2 tid2 htx =>
              injection h with h1 h2
              injection h2 with h3 h4
              unfold registerTx at htx
              rw [if_neg hny] at htx
              cases inject with
              | true => exact Except.noConfusion htx
              | false =>
                  replace htx :
                      (match inp.members.find?
                          (fun m => decide (m.role = MemberRole.TeamLeader)) with
                        | some leader =>
                            if db.users.any (fun u => decide (u.email = leader.email)) then
                              Except.error TxError.uniqueViolation
                            else
                              Except.ok (regUserInsert hash (regTeamInsert db inp) leader
                                db.nextId, db.nextId)
                        | none => Except.ok (regTeamInsert db inp, db.nextId)) =
                        Except.ok (db2, tid2) := htx
                  have hval2 : validateRoster inp.members = Except.ok () := by
                    cases u
                    exact hval
                  obtain ⟨leader, hfind, hrole, hmem⟩ :=
                    countLeaders_find inp.members (validateRoster_ok_shape inp.members hval2).2
                  rw [hfind] at htx
                  replace htx :
                      (if db.users.any (fun u => decide (u.email = leader.email)) then
                        Except.error TxError.uniqueViolation
                      else
                        Except.ok (regUserInsert hash (regTeamInsert db inp) leader
                          db.nextId, db.nextId)) = Except.ok (db2, tid2) := htx
                  by_cases hu : db.users.any (fun u => decide (u.email = leader.email)) = true
                  · rw [if_pos hu] at htx
                    exact Except.noConfusion htx
                  · rw [if_neg hu] at htx
                    injection htx with h5
                    injection h5 with h6 h7
                    refine ⟨rfl, by omega, h4.symm, hval2,
                      leader, hfind, hrole, hmem, ?_⟩
                    rw [← h1, ← h6]

/-- C2: registration is all-or-nothing.  Every error outcome leaves the
store untouched; with the forced failure injected after roster creation
and before leader-identity creation the call always errors, so a team
name that was free beforehand has zero Team rows afterwards; and every
success extends the store by exactly the full aggregate (Team row, its 6
member rows, mentor row, representative row) plus the leader's login
account. -/
theorem C2_registration_atomicity (hash : String → String) (db : RegDB)
    (inp : RegisterTeamInput) (inject : Bool) :
    (∀ d e, registerTeam hash db inp inject = (d, RegResult.err e) → d = db) ∧
    (inject = true → ∃ e, (registerTeam hash db inp inject).2 = RegResult.err e) ∧
    (inject = true → teamsNamed db inp.teamName = [] →
      teamsNamed (registerTeam hash db inp inject).1 inp.teamName = []) ∧
    (∀ d tid nm, registerTeam hash db inp inject = (d, RegResult.ok tid nm) →
      inp.members.length = 6 ∧
      ∃ leader, leader ∈ inp.members ∧ leader.role = MemberRole.TeamLeader ∧
        d.teams = db.teams ++ [⟨db.nextId, inp.teamName, inp.theme⟩] ∧
        d.teamMembers = db.teamMembers ++ inp.members.map (persistMember db.nextId) ∧
        d.mentors = db.mentors ++ [⟨db.nextId, inp.facultyMentor.name,
          inp.facultyMentor.email, inp.facultyMentor.facultyId⟩] ∧
        d.reps = db.reps ++ [⟨db.nextId, inp.communityRepresentative.name,
          inp.communityRepresentative.email, inp.communityRepresentative.affiliation⟩] ∧
        d.users = db.users ++
          [⟨leader.fullName, leader.email, hash "qwert123", "participant", db.nextId⟩]) := by
  refine ⟨registerTeam_err_eq hash db inp inject, ?_, ?_, ?_⟩
  · intro hinj
    cases hinj
    exact registerTeam_inject_err hash db inp
  · intro hinj hfree
    cases hinj
    obtain ⟨e, he⟩ := registerTeam_inject_err hash db inp
    have hd : (registerTeam hash db inp true).1 = db := by
      apply registerTeam_err_eq hash db inp true _ e
      rw [← he]
    rw [hd]
    exact hfree
  · intro d tid nm h
    obtain ⟨hinj, htid, hnm, hval, leader, hfind, hrole, hmem, hd⟩ :=
      registerTeam_ok_eq hash db inp inject d tid nm h
    refine ⟨(validateRoster_ok_shape inp.members hval).1, leader, hmem, hrole, ?_, ?_, ?_, ?_, ?_⟩
    · rw [hd]; rfl
    · rw [hd]; rfl
    · rw [hd]; rfl
    · rw [hd]; rfl
    · rw [hd]; rfl

/-- C2 witness: on the empty store with the valid "Falcons" request and
the forced failure injected, the call errors and no Team row named
"Falcons" persists. -/
theorem C2_registration_atomicity_witness :
    (∃ e, (registerTeam hash0 regDB0 exInput true).2 = RegResult.err e) ∧
    teamsNamed (registerTeam hash0 regDB0 exInput true).1 exInput.teamName = [] :=
  ⟨(C2_registration_atomicity hash0 regDB0 exInput true).2.1 rfl,
    (C2_registration_atomicity hash0 regDB0 exInput true).2.2.1 rfl (by decide)⟩

/-- C6 counterexample: a request whose team name "Falcons" is already
taken but whose roster is empty is rejected with the roster-size
validation error, not the team-name conflict, because roster validation
runs before the name lookup. -/
theorem C6_validation_precedes_conflict_counterexample :
    teamsNamed dbTaken exInputShort.teamName ≠ [] ∧
    registerTeam hash0 dbTaken exInputShort false =
      (dbTaken, RegResult.err RegError.wrongRosterSize) ∧
    RegError.wrongRosterSize ≠ RegError.teamNameTaken := by
  refine ⟨by decide, by decide, by decide⟩

/-- C6 (amended): for every registration request that passes roster
validation and whose team name is already held, the handler fails with
the taken-team-name conflict and persists nothing; and when the
check-then-insert race is lost, the transaction's insert itself fails
with the unique-constraint violation (P2002), which the error handler
translates into the same conflict code. -/
theorem C6_team_name_conflict_amended (hash : String → String) (db : RegDB)
    (inp : RegisterTeamInput) (inject : Bool)
    (htaken : db.teams.any (fun t => decide (t.teamName = inp.teamName)) = true) :
    (validateRoster inp.members = Except.ok () →
      registerTeam hash db inp inject = (db, RegResult.err RegError.teamNameTaken)) ∧
    registerTx hash db inp inject = Except.error TxError.uniqueViolation ∧
    translateTxError TxError.uniqueViolation = RegError.teamNameTaken := by
  refine ⟨?_, ?_, rfl⟩
  · intro hval
    unfold registerTeam
    rw [hval, if_pos htaken]
  · unfold registerTx
    rw [if_pos htaken]

/-- C6 witness: with "Falcons" already taken, the valid "Falcons"
request is rejected with the conflict code and the store is unchanged,
and the raced insert fails with the unique violation. -/
theorem C6_team_name_conflict_witness :
    registerTeam hash0 dbTaken exInput false =
      (dbTaken, RegResult.err RegError.teamNameTaken) ∧
    registerTx hash0 dbTaken exInput false = Except.error TxError.uniqueViolation :=
  ⟨((C6_team_name_conflict_amended hash0 dbTaken exInput false (by decide)).1 (by decide)),
    (C6_team_name_conflict_amended hash0 dbTaken exInput false (by decide)).2.1⟩

/-- C8: every successful registration creates exactly one login
account — for the roster member tagged Team Leader — carrying the
leader's name and email, the hash of the fixed default password
"qwert123", the role marker "participant" and the new team's id; no
account is created for any other roster member. -/
theorem C8_leader_account_only (hash : String → String) (db : RegDB)
    (inp : RegisterTeamInput) (inject : Bool) (d : RegDB) (tid : Nat) (nm : String)
    (h : registerTeam hash db inp inject = (d, RegResult.ok tid nm)) :
    ∃ leader, leader ∈ inp.members ∧ leader.role = MemberRole.TeamLeader ∧
      d.users = db.users ++
        [⟨leader.fullName, leader.email, hash "qwert123", "participant", tid⟩] := by
  obtain ⟨hinj, htid, hnm, hval, leader, hfind, hrole, hmem, hd⟩ :=
    registerTeam_ok_eq hash db inp inject d tid nm h
  refine ⟨leader, hmem, hrole, ?_⟩
  rw [hd, htid]
  rfl

/-- C8 witness: the successful "Falcons" registration on the empty
store creates exactly the leader's participant account. -/
theorem C8_leader_account_only_witness :
    ∃ leader, leader ∈ exInput.members ∧ leader.role = MemberRole.TeamLeader ∧
      (registerTeam hash0 regDB0 exInput false).1.users =
        regDB0.users ++
          [⟨leader.fullName, leader.email, hash0 "qwert123", "participant", 0⟩] :=
  C8_leader_account_only hash0 regDB0 exInput false
    (registerTeam hash0 regDB0 exInput false).1 0 "Falcons" (by decide)

/-! ## Evaluation-store lemmas -/

theorem distinctKeys_iff (ks : List String) : distinctKeys ks = true ↔ ks.Nodup := by
  induction ks with
  | nil => simp [distinctKeys]
  | cons k rest ih =>
      simp [distinctKeys, List.nodup_cons, ih]

/-- An invalid batch makes `createMany` abort. -/
theorem createScores_none (criteria : List Criterion) (db : EvalDB) (eid : Nat)
    (scores : List ScoreInput) (hv : validScores criteria scores = false) :
    createScores criteria db eid scores = none := by
  unfold createScores scoreRowsOk
  rw [hv]
  rfl

/-- A valid batch inserted under an evaluation id carried by no existing
row passes the `createMany` constraints. -/
theorem createScores_some (criteria : List Criterion) (db : EvalDB) (eid : Nat)
    (scores : List ScoreInput) (hv : validScores criteria scores = true)
    (hno : ∀ r ∈ db.evalScores, r.evaluationId ≠ eid) :
    createScores criteria db eid scores =
      some { db with
        evalScores := db.evalScores ++ scores.map (fun s => ⟨eid, s.criteriaId, s.score⟩) } := by
  unfold createScores scoreRowsOk
  rw [hv]
  have hall : db.evalScores.all
      (fun r => !decide (r.evaluationId = eid) ||
        scores.all (fun s => !decide (s.criteriaId = r.criteriaId))) = true := by
    rw [List.all_eq_true]
    intro r hr
    have := hno r hr
    simp [this]
  rw [hall]
  rfl

/-- Splitting a list of evaluations with pairwise-distinct ids around a
member: everything outside the occurrence has a different id. -/
theorem nodup_id_split (l : List EvaluationRow) (ex : EvaluationRow)
    (hnd : (l.map (fun e => e.id)).Nodup) (hmem : ex ∈ l) :
    ∃ lone ltwo, l = lone ++ ex :: ltwo ∧
      (∀ e ∈ lone, e.id ≠ ex.id) ∧ (∀ e ∈ ltwo, e.id ≠ ex.id) := by
  induction l with
  | nil => cases hmem
  | cons a rest ih =>
      rw [List.map_cons, List.nodup_cons] at hnd
      rcases List.mem_cons.mp hmem with hax | hmem2
      · refine ⟨[], rest, by rw [hax, List.nil_append], ?_, ?_⟩
        · intro e he
          cases he
        · intro e he heq
          rw [hax] at heq
          exact hnd.1 (heq ▸ List.mem_map_of_mem (fun e => e.id) he)
      · obtain ⟨lone, ltwo, hsplit, h1, h2⟩ := ih hnd.2 hmem2
        refine ⟨a :: lone, ltwo, by rw [hsplit, List.cons_append], ?_, h2⟩
        intro e he
        rcases List.mem_cons.mp he with hea | he2
        · rw [hea]
          intro heq
          exact hnd.1 (heq ▸ List.mem_map_of_mem (fun e => e.id) hmem2)
        · exact h1 e he2

/-- With the (submission, evaluator) unique index, no evaluation outside
the occurrence of `ex` carries its pair. -/
theorem nodup_pair_split (lone : List EvaluationRow) (ex : EvaluationRow)
    (ltwo : List EvaluationRow)
    (hnd : ((lone ++ ex :: ltwo).map
      (fun e => (e.submissionId, e.evaluatorId))).Nodup) :
    ∀ e, e ∈ lone ∨ e ∈ ltwo →
      ¬(e.submissionId = ex.submissionId ∧ e.evaluatorId = ex.evaluatorId) := by
  rw [List.map_append, List.map_cons, List.nodup_append] at hnd
  obtain ⟨hnd1, hnd2, hdisj⟩ := hnd
  rw [List.nodup_cons] at hnd2
  intro e he hpair
  have hpe : (e.submissionId, e.evaluatorId) = (ex.submissionId, ex.evaluatorId) := by
    rw [hpair.1, hpair.2]
  rcases he with h1 | h2
  · exact hdisj (List.mem_map_of_mem _ h1)
      (by rw [hpe]; exact List.mem_cons_self _ _)
  · exact hnd2.1 (by rw [← hpe]; exact List.mem_map_of_mem _ h2)


/-- The update path of the transaction: an existing evaluation for the
pair is updated in place, its old score rows are deleted, and the new
batch is inserted. -/
theorem submitTx_ok_some (criteria : List Criterion) (db : EvalDB) (ev sub : String)
    (scores : List ScoreInput) (com : String) (ex : EvaluationRow)
    (hv : validScores criteria scores = true)
    (hndid : (db.evaluations.map (fun e => e.id)).Nodup)
    (hidlt : ∀ e ∈ db.evaluations, e.id < db.nextId)
    (hsclt : ∀ s ∈ db.evalScores, s.evaluationId < db.nextId)
    (hndpair : (db.evaluations.map
      (fun e => (e.submissionId, e.evaluatorId))).Nodup)
    (hf : db.evaluations.find?
      (fun e => decide (e.submissionId = sub ∧ e.evaluatorId = ev)) = some ex) :
    ∃ db2 r, submitEvaluationTx criteria db ev sub scores com = some (db2, r) ∧
      EvalDB.WF db2 ∧
      r.submissionId = sub ∧ r.evaluatorId = ev ∧
      r.totalScore = computeTotal criteria scores ∧ r.comments = com ∧
      pairEvals db2 sub ev = [r] ∧
      scoresOf db2 r.id = scores.map (fun s => ⟨r.id, s.criteriaId, s.score⟩) := by
  have hpex : ex.submissionId = sub ∧ ex.evaluatorId = ev := by
    have := List.find?_some hf
    simpa using this
  have hmem := List.mem_of_find?_eq_some hf
  obtain ⟨lone, ltwo, hsplit, hone, htwo⟩ := nodup_id_split db.evaluations ex hndid hmem
  have hpairs := nodup_pair_split lone ex ltwo (by rw [← hsplit]; exact hndpair)
  have hinj := List.inj_on_of_nodup_map hndid
  have hfid : ∀ e ∈ db.evaluations,
      (if e.id = ex.id then
        (⟨ex.id, ex.submissionId, ex.evaluatorId, computeTotal criteria scores, com⟩ :
          EvaluationRow)
      else e).id = e.id := by
    intro e he
    by_cases h : e.id = ex.id
    · simp [h]
    · simp [h]
  have hfpair : ∀ e ∈ db.evaluations,
      ((if e.id = ex.id then
        (⟨ex.id, ex.submissionId, ex.evaluatorId, computeTotal criteria scores, com⟩ :
          EvaluationRow)
      else e).submissionId,
       (if e.id = ex.id then
        (⟨ex.id, ex.submissionId, ex.evaluatorId, computeTotal criteria scores, com⟩ :
          EvaluationRow)
      else e).evaluatorId) = (e.submissionId, e.evaluatorId) := by
    intro e he
    by_cases h : e.id = ex.id
    · have hex : e = ex := hinj he hmem h
      subst hex
      simp
    · simp [h]
  have hmapf : db.evaluations.map
      (fun e => if e.id = ex.id then
        (⟨ex.id, ex.submissionId, ex.evaluatorId, computeTotal criteria scores, com⟩ :
          EvaluationRow)
      else e) =
      lone ++ (⟨ex.id, ex.submissionId, ex.evaluatorId, computeTotal criteria scores, com⟩ :
        EvaluationRow) :: ltwo := by
    rw [hsplit, List.map_append, List.map_cons]
    congr 1
    · exact (List.map_congr_left (fun e he => if_neg (hone e he))).trans (List.map_id lone)
    · congr 1
      · exact if_pos rfl
      · exact (List.map_congr_left (fun e he => if_neg (htwo e he))).trans (List.map_id ltwo)
  have hno : ∀ r ∈ (⟨db.evaluations.map
      (fun e => if e.id = ex.id then
        (⟨ex.id, ex.submissionId, ex.evaluatorId, computeTotal criteria scores, com⟩ :
          EvaluationRow)
      else e),
      db.evalScores.filter (fun s => !decide (s.evaluationId = ex.id)),
      db.nextId⟩ : EvalDB).evalScores, r.evaluationId ≠ ex.id := by
    intro r hr
    have := List.mem_filter.mp hr
    simpa using this.2
  have hcs := createScores_some criteria
    ⟨db.evaluations.map
      (fun e => if e.id = ex.id then
        (⟨ex.id, ex.submissionId, ex.evaluatorId, computeTotal criteria scores, com⟩ :
          EvaluationRow)
      else e),
      db.evalScores.filter (fun s => !decide (s.evaluationId = ex.id)),
      db.nextId⟩
    ex.id scores hv hno
  have htx : submitEvaluationTx criteria db ev sub scores com =
      some (⟨db.evaluations.map
        (fun e => if e.id = ex.id then
          (⟨ex.id, ex.submissionId, ex.evaluatorId, computeTotal criteria scores, com⟩ :
            EvaluationRow)
        else e),
        db.evalScores.filter (fun s => !decide (s.evaluationId = ex.id)) ++
          scores.map (fun s => (⟨ex.id, s.criteriaId, s.score⟩ : EvaluationScoreRow)),
        db.nextId⟩,
        ⟨ex.id, ex.submissionId, ex.evaluatorId, computeTotal criteria scores, com⟩) := by
    unfold submitEvaluationTx
    simp only [hf]
    rw [hcs]
    rfl
  refine ⟨_, _, htx, ⟨?_, ?_, ?_, ?_⟩, hpex.1, hpex.2, rfl, rfl, ?_, ?_⟩
  · show ((db.evaluations.map
      (fun e => if e.id = ex.id then
        (⟨ex.id, ex.submissionId, ex.evaluatorId, computeTotal criteria scores, com⟩ :
          EvaluationRow)
      else e)).map (fun e => e.id)).Nodup
    rw [List.map_map]
    rw [show ((fun e : EvaluationRow => e.id) ∘
        (fun e => if e.id = ex.id then
          (⟨ex.id, ex.submissionId, ex.evaluatorId, computeTotal criteria scores, com⟩ :
            EvaluationRow)
        else e)) = (fun e : EvaluationRow => (if e.id = ex.id then
          (⟨ex.id, ex.submissionId, ex.evaluatorId, computeTotal criteria scores, com⟩ :
            EvaluationRow)
        else e).id) from rfl]
    rw [List.map_congr_left hfid]
    exact hndid
  · intro e he
    show e.id < db.nextId
    rw [List.mem_map] at he
    obtain ⟨e0, he0, hfe⟩ := he
    rw [← hfe, hfid e0 he0]
    exact hidlt e0 he0
  · intro s hs
    show s.evaluationId < db.nextId
    rcases List.mem_append.mp hs with h1 | h1
    · exact hsclt s (List.mem_filter.mp h1).1
    · rw [List.mem_map] at h1
      obtain ⟨t, ht, hts⟩ := h1
      rw [← hts]
      exact hidlt ex hmem
  · show ((db.evaluations.map
      (fun e => if e.id = ex.id then
        (⟨ex.id, ex.submissionId, ex.evaluatorId, computeTotal criteria scores, com⟩ :
          EvaluationRow)
      else e)).map (fun e => (e.submissionId, e.evaluatorId))).Nodup
    rw [List.map_map]
    rw [show ((fun e : EvaluationRow => (e.submissionId, e.evaluatorId)) ∘
        (fun e => if e.id = ex.id then
          (⟨ex.id, ex.submissionId, ex.evaluatorId, computeTotal criteria scores, com⟩ :
            EvaluationRow)
        else e)) = (fun e : EvaluationRow => ((if e.id = ex.id then
          (⟨ex.id, ex.submissionId, ex.evaluatorId, computeTotal criteria scores, com⟩ :
            EvaluationRow)
        else e).submissionId, (if e.id = ex.id then
          (⟨ex.id, ex.submissionId, ex.evaluatorId, computeTotal criteria scores, com⟩ :
            EvaluationRow)
        else e).evaluatorId)) from rfl]
    rw [List.map_congr_left hfpair]
    exact hndpair
  · show ((db.evaluations.map
      (fun e => if e.id = ex.id then
        (⟨ex.id, ex.submissionId, ex.evaluatorId, computeTotal criteria scores, com⟩ :
          EvaluationRow)
      else e)).filter
        (fun e => decide (e.submissionId = sub ∧ e.evaluatorId = ev))) =
      [(⟨ex.id, ex.submissionId, ex.evaluatorId, computeTotal criteria scores, com⟩ :
        EvaluationRow)]
    rw [hmapf, List.filter_append, List.filter_cons]
    rw [if_pos (by simp [hpex.1, hpex.2])]
    have h1 : lone.filter
        (fun e => decide (e.submissionId = sub ∧ e.evaluatorId = ev)) = [] := by
      rw [List.filter_eq_nil_iff]
      intro e he
      have hne := hpairs e (Or.inl he)
      simp only [decide_eq_true_eq]
      intro hc
      exact hne ⟨hc.1.trans hpex.1.symm, hc.2.trans hpex.2.symm⟩
    have h2 : ltwo.filter
        (fun e => decide (e.submissionId = sub ∧ e.evaluatorId = ev)) = [] := by
      rw [List.filter_eq_nil_iff]
      intro e he
      have hne := hpairs e (Or.inr he)
      simp only [decide_eq_true_eq]
      intro hc
      exact hne ⟨hc.1.trans hpex.1.symm, hc.2.trans hpex.2.symm⟩
    rw [h1, h2]
    rfl
  · show (((db.evalScores.filter (fun s => !decide (s.evaluationId = ex.id))) ++
      scores.map (fun s => (⟨ex.id, s.criteriaId, s.score⟩ : EvaluationScoreRow))).filter
        (fun s => decide (s.evaluationId = ex.id))) =
      scores.map (fun s => (⟨ex.id, s.criteriaId, s.score⟩ : EvaluationScoreRow))
    rw [List.filter_append]
    have h1 : (db.evalScores.filter
        (fun s => !decide (s.evaluationId = ex.id))).filter
          (fun s => decide (s.evaluationId = ex.id)) = [] := by
      rw [List.filter_eq_nil_iff]
      intro s hs
      have h := (List.mem_filter.mp hs).2
      simp at h
      simp [h]
    have h2 : (scores.map
        (fun s => (⟨ex.id, s.criteriaId, s.score⟩ : EvaluationScoreRow))).filter
          (fun s => decide (s.evaluationId = ex.id)) =
        scores.map (fun s => (⟨ex.id, s.criteriaId, s.score⟩ : EvaluationScoreRow)) := by
      rw [List.filter_eq_self]
      intro b hb
      rw [List.mem_map] at hb
      obtain ⟨t, ht, htb⟩ := hb
      rw [← htb]
      simp
    rw [h1, h2]
    rfl

/-- Postcondition of one successful submitEvaluation transaction on a
well-formed store with a valid batch: the transaction succeeds,
well-formedness is preserved, the (submission, evaluator) pair holds
exactly one Evaluation row carrying the computed total and the new
comments, and that row's score rows are exactly the submitted batch. -/
theorem submitTx_ok (criteria : List Criterion) (db : EvalDB) (ev sub : String)
    (scores : List ScoreInput) (com : String)
    (hWF : EvalDB.WF db) (hv : validScores criteria scores = true) :
    ∃ db2 r, submitEvaluationTx criteria db ev sub scores com = some (db2, r) ∧
      EvalDB.WF db2 ∧
      r.submissionId = sub ∧ r.evaluatorId = ev ∧
      r.totalScore = computeTotal criteria scores ∧ r.comments = com ∧
      pairEvals db2 sub ev = [r] ∧
      scoresOf db2 r.id = scores.map (fun s => ⟨r.id, s.criteriaId, s.score⟩) := by
  obtain ⟨hndid, hidlt, hsclt, hndpair⟩ := hWF
  cases hf : db.evaluations.find?
      (fun e => decide (e.submissionId = sub ∧ e.evaluatorId = ev)) with
  | some ex =>
      exact submitTx_ok_some criteria db ev sub scores com ex hv hndid hidlt hsclt hndpair hf
  | none =>
      have hnone : ∀ e ∈ db.evaluations,
          ¬(e.submissionId = sub ∧ e.evaluatorId = ev) := by
        intro e he
        have := List.find?_eq_none.mp hf e he
        simpa using this
      have hno : ∀ r ∈ (⟨db.evaluations ++
          [(⟨db.nextId, sub, ev, computeTotal criteria scores, com⟩ : EvaluationRow)],
          db.evalScores, db.nextId + 1⟩ : EvalDB).evalScores,
          r.evaluationId ≠ db.nextId := by
        intro r hr
        exact Nat.ne_of_lt (hsclt r hr)
      have hcs := createScores_some criteria
        ⟨db.evaluations ++
          [(⟨db.nextId, sub, ev, computeTotal criteria scores, com⟩ : EvaluationRow)],
          db.evalScores, db.nextId + 1⟩
        db.nextId scores hv hno
      have htx : submitEvaluationTx criteria db ev sub scores com =
          some (⟨db.evaluations ++
            [(⟨db.nextId, sub, ev, computeTotal criteria scores, com⟩ : EvaluationRow)],
            db.evalScores ++
              scores.map (fun s => (⟨db.nextId, s.criteriaId, s.score⟩ : EvaluationScoreRow)),
            db.nextId + 1⟩,
            ⟨db.nextId, sub, ev, computeTotal criteria scores, com⟩) := by
        unfold submitEvaluationTx
        simp only [hf]
        rw [hcs]
        rfl
      refine ⟨_, _, htx, ⟨?_, ?_, ?_, ?_⟩, rfl, rfl, rfl, rfl, ?_, ?_⟩
      · show ((db.evaluations ++
          [(⟨db.nextId, sub, ev, computeTotal criteria scores, com⟩ : EvaluationRow)]).map
            (fun e => e.id)).Nodup
        rw [List.map_append, List.nodup_append]
        refine ⟨hndid, by simp, ?_⟩
        intro a ha hb
        rw [List.mem_map] at ha
        obtain ⟨e, he, hea⟩ := ha
        simp only [List.map_cons, List.map_nil, List.mem_singleton] at hb
        have := hidlt e he
        omega
      · intro e he
        show e.id < db.nextId + 1
        rcases List.mem_append.mp he with h1 | h1
        · exact Nat.lt_succ_of_lt (hidlt e h1)
        · rw [List.mem_singleton] at h1
          rw [h1]
          exact Nat.lt_succ_self _
      · intro s hs
        show s.evaluationId < db.nextId + 1
        rcases List.mem_append.mp hs with h1 | h1
        · exact Nat.lt_succ_of_lt (hsclt s h1)
        · rw [List.mem_map] at h1
          obtain ⟨t, ht, hts⟩ := h1
          rw [← hts]
          exact Nat.lt_succ_self _
      · show ((db.evaluations ++
          [(⟨db.nextId, sub, ev, computeTotal criteria scores, com⟩ : EvaluationRow)]).map
            (fun e => (e.submissionId, e.evaluatorId))).Nodup
        rw [List.map_append, List.nodup_append]
        refine ⟨hndpair, by simp, ?_⟩
        intro a ha hb
        rw [List.mem_map] at ha
        obtain ⟨e, he, hea⟩ := ha
        simp only [List.map_cons, List.map_nil, List.mem_singleton] at hb
        rw [← hea] at hb
        injection hb with hb1 hb2
        exact hnone e he ⟨hb1, hb2⟩
      · show ((db.evaluations ++
          [(⟨db.nextId, sub, ev, computeTotal criteria scores, com⟩ : EvaluationRow)]).filter
            (fun e => decide (e.submissionId = sub ∧ e.evaluatorId = ev))) =
          [(⟨db.nextId, sub, ev, computeTotal criteria scores, com⟩ : EvaluationRow)]
        rw [List.filter_append]
        have h1 : db.evaluations.filter
            (fun e => decide (e.submissionId = sub ∧ e.evaluatorId = ev)) = [] := by
          rw [List.filter_eq_nil_iff]
          intro e he
          simpa using hnone e he
        rw [h1]
        simp
      · show ((db.evalScores ++
          scores.map (fun s => (⟨db.nextId, s.criteriaId, s.score⟩ : EvaluationScoreRow))).filter
            (fun s => decide (s.evaluationId = db.nextId))) =
          scores.map (fun s => (⟨db.nextId, s.criteriaId, s.score⟩ : EvaluationScoreRow))
        rw [List.filter_append]
        have h1 : db.evalScores.filter
            (fun s => decide (s.evaluationId = db.nextId)) = [] := by
          rw [List.filter_eq_nil_iff]
          intro s hs
          have := hsclt s hs
          simp
          omega
        have h2 : (scores.map
            (fun s => (⟨db.nextId, s.criteriaId, s.score⟩ : EvaluationScoreRow))).filter
              (fun s => decide (s.evaluationId = db.nextId)) =
            scores.map (fun s => (⟨db.nextId, s.criteriaId, s.score⟩ : EvaluationScoreRow)) := by
          rw [List.filter_eq_self]
          intro b hb
          rw [List.mem_map] at hb
          obtain ⟨t, ht, htb⟩ := hb
          rw [← htb]
          simp
        rw [h1, h2]
        rfl

/-- C1: calling submitEvaluation twice in sequence with the same
evaluator, submission and valid score batch succeeds both times and
leaves exactly one Evaluation row for the (submission, evaluator) pair,
whose score rows are exactly one row per submitted pair (N rows, never
2N) and whose total is the computed total: the second call fully
replaces the first call's rows. -/
theorem C1_evaluation_idempotent (criteria : List Criterion) (db : EvalDB)
    (ev sub : String) (scores : List ScoreInput) (com : String)
    (hWF : EvalDB.WF db) (hv : validScores criteria scores = true) :
    ∃ db1 db2 r,
      submitEvaluation criteria db ev sub scores com = (db1, true) ∧
      submitEvaluation criteria db1 ev sub scores com = (db2, true) ∧
      pairEvals db2 sub ev = [r] ∧
      (scoresOf db2 r.id).length = scores.length ∧
      scoresOf db2 r.id = scores.map (fun s => ⟨r.id, s.criteriaId, s.score⟩) ∧
      r.totalScore = computeTotal criteria scores := by
  obtain ⟨db1, r1, htx1, hWF1, _, _, _, _, _, _⟩ :=
    submitTx_ok criteria db ev sub scores com hWF hv
  obtain ⟨db2, r2, htx2, hWF2, hs2, he2, ht2, hc2, hp2, hsc2⟩ :=
    submitTx_ok criteria db1 ev sub scores com hWF1 hv
  refine ⟨db1, db2, r2, ?_, ?_, hp2, ?_, hsc2, ht2⟩
  · unfold submitEvaluation
    rw [htx1]
  · unfold submitEvaluation
    rw [htx2]
  · rw [hsc2, List.length_map]

/-- C1 witness: two identical submissions of scores {80, 70} against
criteria weights {60, 40} on the empty store leave one Evaluation row
with exactly two score rows. -/
theorem C1_evaluation_idempotent_witness :
    EvalDB.WF evalDB0 ∧ validScores crit2 sIn2 = true ∧
    (∃ db1 db2 r,
      submitEvaluation crit2 evalDB0 "ev1" "sub1" sIn2 "good" = (db1, true) ∧
      submitEvaluation crit2 db1 "ev1" "sub1" sIn2 "good" = (db2, true) ∧
      pairEvals db2 "sub1" "ev1" = [r] ∧
      (scoresOf db2 r.id).length = sIn2.length ∧
      scoresOf db2 r.id = sIn2.map (fun s => ⟨r.id, s.criteriaId, s.score⟩) ∧
      r.totalScore = computeTotal crit2 sIn2) :=
  ⟨by unfold EvalDB.WF; decide, by decide,
    C1_evaluation_idempotent crit2 evalDB0 "ev1" "sub1" sIn2 "good"
      (by unfold EvalDB.WF; decide) (by decide)⟩

/-- C10: submitEvaluation attempts to insert one EvaluationScore row per
submitted pair, so under the store's foreign-key constraint on
criteriaId and the unique (evaluationId, criteriaId) constraint, a batch
containing an unknown criterionId or a repeated criterionId makes the
whole call fail and leaves the store unchanged. -/
theorem C10_constraint_violation_rollback (criteria : List Criterion) (db : EvalDB)
    (ev sub : String) (scores : List ScoreInput) (com : String)
    (hbad : (∃ s ∈ scores, ∀ c ∈ criteria, c.id ≠ s.criteriaId) ∨
      ¬(scores.map (fun s => s.criteriaId)).Nodup) :
    submitEvaluation criteria db ev sub scores com = (db, false) := by
  have hvf : validScores criteria scores = false := by
    unfold validScores
    rcases hbad with ⟨s0, hs0, hall⟩ | hdup
    · have hA : scores.all
          (fun s => criteria.any (fun c => decide (c.id = s.criteriaId))) = false := by
        rw [Bool.eq_false_iff]
        intro hA
        rw [List.all_eq_true] at hA
        have := hA s0 hs0
        rw [List.any_eq_true] at this
        obtain ⟨c, hc, hid⟩ := this
        rw [decide_eq_true_eq] at hid
        exact hall c hc hid
      rw [hA, Bool.false_and]
    · have hB : distinctKeys (scores.map (fun s => s.criteriaId)) = false := by
        rw [Bool.eq_false_iff]
        intro hB
        exact hdup ((distinctKeys_iff _).mp hB)
      rw [hB, Bool.and_false]
  have htxn : submitEvaluationTx criteria db ev sub scores com = none := by
    unfold submitEvaluationTx
    cases hf : db.evaluations.find?
        (fun e => decide (e.submissionId = sub ∧ e.evaluatorId = ev)) with
    | some ex =>
        simp only [hf]
        rw [createScores_none criteria _ ex.id scores hvf]
        rfl
    | none =>
        simp only [hf]
        rw [createScores_none criteria _ db.nextId scores hvf]
        rfl
  unfold submitEvaluation
  rw [htxn]

/-- C10 witness: a batch referencing the unknown criterion "zz" and a
batch scoring "c1" twice both fail and leave the empty store
unchanged. -/
theorem C10_constraint_violation_rollback_witness :
    submitEvaluation crit2 evalDB0 "ev1" "sub1" [⟨"zz", 5⟩] "c" = (evalDB0, false) ∧
    submitEvaluation crit2 evalDB0 "ev1" "sub1" [⟨"c1", 5⟩, ⟨"c1", 6⟩] "c" =
      (evalDB0, false) :=
  ⟨C10_constraint_violation_rollback crit2 evalDB0 "ev1" "sub1" [⟨"zz", 5⟩] "c"
      (Or.inl ⟨⟨"zz", 5⟩, List.mem_cons_self _ _, by decide⟩),
    C10_constraint_violation_rollback crit2 evalDB0 "ev1" "sub1"
      [⟨"c1", 5⟩, ⟨"c1", 6⟩] "c" (Or.inr (by decide))⟩
